import Mathlib

/-!
A shallow embedding of `src/app.js` (the LitEpub story-to-EPUB converter).

JavaScript strings are modelled as Lean `String`s; the handful of string
primitives the code relies on (`includes`, `startsWith`, `split('?')[0]`,
`replace(/&nbsp;/g, ' ')`, `encodeURIComponent`) are embedded at the
character-list level with the same semantics.  Parsed HTML documents are
modelled as a record holding, for each CSS selector the code queries, the
result of that query (the DOM itself is an external collaborator).
-/

namespace LitEpub

/-- JS `String.prototype.startsWith`, at the character-list level:
`startsWithCh pat l` iff `pat` is an initial segment of `l`. -/
def startsWithCh : List Char → List Char → Bool
  | [], _ => true
  | _ :: _, [] => false
  | p :: ps, c :: cs => p == c && startsWithCh ps cs

/-- JS `String.prototype.includes`, at the character-list level:
some suffix of `l` starts with `pat`. -/
def containsCh (pat : List Char) : List Char → Bool
  | [] => startsWithCh pat []
  | c :: cs => startsWithCh pat (c :: cs) || containsCh pat cs

/-- JS `haystack.includes(needle)` for Lean strings. -/
def strContains (haystack needle : String) : Bool :=
  containsCh needle.data haystack.data

/-- JS `String.prototype.trim`: drop leading and trailing whitespace,
at the character-list level (kernel-computable, unlike `String.trim`). -/
def jsTrim (s : String) : String :=
  String.mk (((s.data.dropWhile Char.isWhitespace).reverse.dropWhile Char.isWhitespace).reverse)

/-- ASCII lower-casing of one character. -/
def lowerChar (c : Char) : Char :=
  if 65 ≤ c.toNat ∧ c.toNat ≤ 90 then Char.ofNat (c.toNat + 32) else c

/-- JS `String.prototype.toLowerCase` (the code only ever compares the
result against ASCII needles). -/
def jsLower (s : String) : String :=
  String.mk (s.data.map lowerChar)

/-- One DOM element, restricted to the properties `app.js` reads:
`textContent`, `innerHTML`, `className`, the `title` attribute and the
`href` attribute. -/
structure Element where
  textContent : String
  innerHTML : String
  className : String
  titleAttr : String
  href : String
deriving DecidableEq, Repr

/-- A parsed HTML document, restricted to the queries `app.js` performs:
`doc.title`, `doc.querySelectorAll('a')` (in document order), and the
result of `doc.querySelector(sel)` for each fixed selector in the code. -/
structure Doc where
  /-- `doc.title` -/
  title : String
  /-- `doc.querySelectorAll('a')`, in document order -/
  anchors : List Element
  /-- `doc.querySelector("._article__content_14oe9_81 > div:first-child")` -/
  qArticleContent : Option Element
  /-- `doc.querySelector(".b-story-body-x")` -/
  qStoryBodyX : Option Element
  /-- `doc.querySelector(".aa_ht")` -/
  qAaHt : Option Element
  /-- `doc.querySelector("h1._title_2d1pc_26")` -/
  qTitleNew : Option Element
  /-- `doc.querySelector("h1.headline")` -/
  qHeadline : Option Element
  /-- `doc.querySelector("h1")` -/
  qH1 : Option Element
  /-- `doc.querySelector("._author__title_2mplv_48")` -/
  qAuthorNew : Option Element
  /-- `doc.querySelector(".y_eU")` -/
  qYeU : Option Element
  /-- `doc.querySelector(".b-story-user-y")` -/
  qStoryUserY : Option Element
  /-- `doc.querySelectorAll('.series__works .br_rj')`, in document order -/
  seriesWorks : List Element
deriving DecidableEq, Repr

/-! ### NEXT BUTTON DETECTION (src/app.js:151-168) -/

/-- The predicate of the `links.find(a => ...)` callback in
`fetchAllPagesOfStory` (src/app.js:155-168). -/
def isNextAnchor (a : Element) : Bool :=
  let text := jsLower (jsTrim a.textContent)
  let cls := jsLower a.className
  let title := jsLower a.titleAttr
  (text == "next") ||
  (strContains text "next »") ||
  (text == "»") ||
  (strContains cls "pager-next") ||
  (strContains cls "b-pager-next") ||
  (strContains title "next page")

/-- `links.find(...)` over `doc.querySelectorAll('a')`: first matching
anchor in document order (src/app.js:152-168). -/
def findNextLink (doc : Doc) : Option Element :=
  doc.anchors.find? isNextAnchor

/-! ### Helper lemmas about `List.find?` -/

theorem find_first {α : Type} (p : α → Bool) :
    ∀ (l : List α) (a : α), l.find? p = some a →
      ∃ l1 l2, l = l1 ++ a :: l2 ∧ ∀ b ∈ l1, p b = false := by
  intro l
  induction l with
  | nil => intro a h; simp [List.find?] at h
  | cons c cs ih =>
    intro a h
    by_cases hc : p c
    · rw [List.find?_cons_of_pos _ hc] at h
      refine ⟨[], cs, by simp [← Option.some_inj.mp h], by simp⟩
    · rw [List.find?_cons_of_neg _ hc] at h
      obtain ⟨l1, l2, hl, hall⟩ := ih a h
      refine ⟨c :: l1, l2, by simp [hl], ?_⟩
      intro b hb
      rcases List.mem_cons.mp hb with h1 | h1
      · simpa [h1] using hc
      · exact hall b h1

/-! ### FETCH HELPER (src/app.js:1, 38-63)

`fetchPage` wraps the target URL with the CORS proxy, a cache-busting
timestamp and `encodeURIComponent`, issues the request, parses the body,
and rejects anti-bot challenge pages.  The network and the HTML parser are
external collaborators, modelled as explicit function parameters; the
wall clock (`Date.now()`) is an explicit `now` parameter. -/

/-- `const CORS_PROXY = "https://corsproxy.io/?";` (src/app.js:1) -/
def CORS_PROXY : String := "https://corsproxy.io/?"

/-- Upper-case hexadecimal digit for `n < 16`. -/
def hexDigit (n : Nat) : Char :=
  if n < 10 then Char.ofNat (48 + n) else Char.ofNat (55 + n)

/-- `%XY` percent-escape of one byte. -/
def pctByte (b : Nat) : List Char :=
  ['%', hexDigit (b / 16), hexDigit (b % 16)]

/-- UTF-8 bytes of a Unicode code point. -/
def utf8Bytes (n : Nat) : List Nat :=
  if n < 128 then [n]
  else if n < 2048 then [192 + n / 64, 128 + n % 64]
  else if n < 65536 then [224 + n / 4096, 128 + (n / 64) % 64, 128 + n % 64]
  else [240 + n / 262144, 128 + (n / 4096) % 64, 128 + (n / 64) % 64, 128 + n % 64]

/-- The characters JS `encodeURIComponent` leaves unescaped:
`A-Z a-z 0-9 - _ . ! ~ * ' ( )`. -/
def isUnreservedEcp (c : Char) : Bool :=
  c.isAlphanum || c ∈ ['-', '_', '.', '!', '~', '*', Char.ofNat 39, '(', ')']

/-- Encoding of a single character under `encodeURIComponent`. -/
def encodeChar (c : Char) : List Char :=
  if isUnreservedEcp c then [c] else ((utf8Bytes c.toNat).map pctByte).flatten

/-- JS `encodeURIComponent`. -/
def encodeURIComponent (s : String) : String :=
  String.mk ((s.data.map encodeChar).flatten)

/-- The URL actually passed to the browser `fetch` by `fetchPage`
(src/app.js:41-42): the caller's URL gets a cache-busting `t={now}`
query parameter (joined with `&` if it already has a query, `?`
otherwise), and the result is percent-encoded and appended to the CORS
proxy prefix. -/
def fetchTarget (url : String) (now : Nat) : String :=
  let cacheBuster := if strContains url "?" then "&t=" ++ toString now
                     else "?t=" ++ toString now
  CORS_PROXY ++ encodeURIComponent (url ++ cacheBuster)

/-- The part of a browser `Response` the code reads: `ok`, `status`,
and the body text. -/
structure HttpResponse where
  ok : Bool
  status : Nat
  text : String
deriving DecidableEq, Repr

/-- `fetchPage` (src/app.js:38-63).  `net` is the browser `fetch`
(transport assumed to deliver a response), `parse` is `DOMParser`, `now`
is `Date.now()`.  The inner `try` body throws `HTTP Error: {status}` on a
non-ok response and the Cloudflare message on an anti-bot challenge page;
the surrounding `catch` rewraps any thrown message as
`Network error: {message}`. -/
def fetchPage (net : String → HttpResponse) (parse : String → Doc)
    (now : Nat) (url : String) : Except String Doc :=
  let targetUrl := fetchTarget url now
  let response := net targetUrl
  let inner : Except String Doc :=
    if !response.ok then .error ("HTTP Error: " ++ toString response.status)
    else
      let doc := parse response.text
      if strContains doc.title "Just a moment" || strContains doc.title "Cloudflare" then
        .error "Blocked by Cloudflare protection. Try a different network."
      else .ok doc
  match inner with
  | .error msg => .error ("Network error: " ++ msg)
  | .ok doc => .ok doc

/-! ### CONTENT / METADATA EXTRACTION (src/app.js:181-204) -/

/-- JS `x || y` where `x` is `element?.textContent`: `undefined` (no
element) and the empty string are both falsy and fall through to `y`. -/
def jsStrOr (x : Option String) (y : String) : String :=
  match x with
  | some s => if s = "" then y else s
  | none => y

/-- `extractMetadata` (src/app.js:181-192): ordered selector fallback for
title and author, each defaulting to a sentinel, then trimmed. -/
def extractMetadata (doc : Doc) : String × String :=
  let title := jsStrOr (doc.qTitleNew.map Element.textContent)
    (jsStrOr (doc.qHeadline.map Element.textContent)
      (jsStrOr (doc.qH1.map Element.textContent) "Unknown Title"))
  let author := jsStrOr (doc.qAuthorNew.map Element.textContent)
    (jsStrOr (doc.qYeU.map Element.textContent)
      (jsStrOr (doc.qStoryUserY.map Element.textContent) "Unknown Author"))
  (jsTrim title, jsTrim author)

/-- `extractStoryContent` (src/app.js:194-204): ordered selector fallback
(`||` on elements picks the first non-null); throws when no candidate
matches; otherwise yields the matched container's `innerHTML`. -/
def extractStoryContent (doc : Doc) : Except String String :=
  match doc.qArticleContent.orElse (fun _ => doc.qStoryBodyX.orElse (fun _ => doc.qAaHt)) with
  | some contentDiv => .ok contentDiv.innerHTML
  | none => .error "Could not locate story text. The page structure might be unknown or blocked."

/-! ### CORE LOOP: Pagination Handler (src/app.js:129-179) -/

/-- `startUrl.split('?')[0]` (src/app.js:131): everything before the
first `?`. -/
def stripQuery (u : String) : String :=
  String.mk (u.data.takeWhile (fun c => c ≠ '?'))

/-- The URL requested for a given physical page number
(src/app.js:140): page 1 gets the bare base URL, page `n > 1` gets
`{baseUrl}?page={n}`. -/
def pageUrl (baseUrl : String) (pageNum : Nat) : String :=
  if pageNum = 1 then baseUrl else baseUrl ++ "?page=" ++ toString pageNum

/-- The visual separator inserted before every page's content after the
first (src/app.js:148). -/
def separator : String :=
  "<hr class=\"page-break\" style=\"margin: 2em 0; border-top: 2px dashed #666;\" />"

/-- `const MAX_PAGES = 50;` (src/app.js:135). -/
def MAX_PAGES : Nat := 50

/-- The `while (hasNext && pageNum <= MAX_PAGES)` loop of
`fetchAllPagesOfStory` (src/app.js:137-176), from loop state
`(pageNum, fullHtml)`.  `env url` is the combined
`fetchPage`-and-succeed step at `url` (errors from the fetch or from
`extractStoryContent` propagate out of the loop).  Returns the list of
URLs fetched (in fetch order) together with the loop's outcome. -/
def paginateFrom (env : String → Except String Doc) (baseUrl : String)
    (pageNum : Nat) (fullHtml : String) : List String × Except String String :=
  if _h : pageNum ≤ MAX_PAGES then
    let url := pageUrl baseUrl pageNum
    match env url with
    | .error e => ([url], .error e)
    | .ok doc =>
      match extractStoryContent doc with
      | .error e => ([url], .error e)
      | .ok content =>
        let acc := if pageNum = 1 then content else fullHtml ++ separator ++ content
        match findNextLink doc with
        | some _ =>
          let rest := paginateFrom env baseUrl (pageNum + 1) acc
          (url :: rest.1, rest.2)
        | none => ([url], .ok acc)
  else ([], .ok fullHtml)
termination_by MAX_PAGES + 1 - pageNum
decreasing_by simp_wf; omega

/-- `fetchAllPagesOfStory` (src/app.js:129-179): strip the start URL's
query string, then run the pagination loop from page 1 with an empty
accumulator. -/
def fetchAllPagesOfStory (env : String → Except String Doc) (startUrl : String) :
    List String × Except String String :=
  paginateFrom env (stripQuery startUrl) 1 ""

/-! ### SERIES LOGIC (src/app.js:68-105)

Only the chapter-link enumeration of `processSeries` is modelled here
(the per-chapter fetching reuses `fetchAllPagesOfStory` and the final
packaging reuses `generateEpub`). -/

/-- One enumerated series entry: the chapter link's trimmed text and its
absolutized `href`. -/
structure SeriesEntry where
  chapterTitle : String
  chapterUrl : String
deriving DecidableEq, Repr

/-- URL absolutization for a chapter link (src/app.js:87):
`if(!chapterUrl.startsWith('http')) chapterUrl = 'https://www.literotica.com' + chapterUrl;` -/
def absolutize (href : String) : String :=
  if startsWithCh "http".data href.data then href
  else "https://www.literotica.com" ++ href

/-- The entry built from one element of
`doc.querySelectorAll('.series__works .br_rj')` (src/app.js:83-89). -/
def seriesEntryOfLink (link : Element) : SeriesEntry :=
  ⟨jsTrim link.textContent, absolutize link.href⟩

/-- The enumeration part of `processSeries` (src/app.js:75-98): read the
chapter links in document order, fail when there are none, otherwise
yield one entry per link. -/
def seriesChapterEntries (doc : Doc) : Except String (List SeriesEntry) :=
  let chapterLinks := doc.seriesWorks
  if chapterLinks.length = 0 then .error "No chapters found on series page."
  else .ok (chapterLinks.map seriesEntryOfLink)

/-! ### EPUB GENERATOR (src/app.js:209-270)

`generateEpub` is modelled as the list of named zip entries it adds, in
the order the code adds them, with the compression option it passes
(`{compression: "STORE"}` for `mimetype`, JSZip's default DEFLATE
otherwise).  The binary serialization (`zip.generateAsync`) and the
download (`saveAs`) are the external packaging layer. -/

inductive Compression where
  | STORE
  | DEFLATE
deriving DecidableEq, Repr

/-- One named entry of the produced archive. -/
structure ZipEntry where
  name : String
  content : String
  compression : Compression
deriving DecidableEq, Repr

/-- `{ title, content }` as consumed by `generateEpub`. -/
structure Chapter where
  title : String
  content : String
deriving DecidableEq, Repr

/-- The fixed `META-INF/container.xml` content (src/app.js:214). -/
def containerXml : String :=
  "<?xml version=\"1.0\"?><container version=\"1.0\" xmlns=\"urn:oasis:names:tc:opendocument:xmlns:container\"><rootfiles><rootfile full-path=\"content.opf\" media-type=\"application/oebps-package+xml\"/></rootfiles></container>"

/-- `['&','n','b','s','p',';']`, the pattern of `/&nbsp;/g` (src/app.js:225). -/
def nbspPat : List Char := "&nbsp;".data

/-- `chapter.content.replace(/&nbsp;/g, ' ')` (src/app.js:225) at the
character-list level: scan left to right; at each position, if the
remaining input starts with `&nbsp;`, emit one space and skip the six
matched characters (`cs.drop 5` skips the five after the head), else keep
the character. -/
def replNbsp : List Char → List Char
  | [] => []
  | c :: cs =>
    if startsWithCh nbspPat (c :: cs) then ' ' :: replNbsp (cs.drop 5)
    else c :: replNbsp cs
termination_by l => l.length
decreasing_by
  · simp_wf; omega
  · simp_wf

/-- `replace(/&nbsp;/g, ' ')` on strings. -/
def replNbspStr (s : String) : String := String.mk (replNbsp s.data)

/-- The maximal non-overlapping left-to-right decomposition of the input
at occurrences of `&nbsp;`: the list of the segments between (and
around) the matches.  Used only to state what the replacement does. -/
def splitNbsp : List Char → List (List Char)
  | [] => [[]]
  | c :: cs =>
    if startsWithCh nbspPat (c :: cs) then [] :: splitNbsp (cs.drop 5)
    else
      match splitNbsp cs with
      | [] => [[c]]
      | s :: rest => (c :: s) :: rest
termination_by l => l.length
decreasing_by
  · simp_wf; omega
  · simp_wf

/-- Join a list of segments, placing `sep` between consecutive segments. -/
def joinSep (sep : List Char) : List (List Char) → List Char
  | [] => []
  | [s] => s
  | s :: s2 :: rest => s ++ sep ++ joinSep sep (s2 :: rest)

/-- The per-chapter XHTML document template (src/app.js:227-239), split
at the two `${chapter.title}` interpolations and the `${cleanContent}`
interpolation. -/
def xhtmlA : String :=
  "<?xml version=\"1.0\" encoding=\"utf-8\"?>\n            <!DOCTYPE html PUBLIC \"-//W3C//DTD XHTML 1.1//EN\" \"http://www.w3.org/TR/xhtml11/DTD/xhtml11.dtd\">\n            <html xmlns=\"http://www.w3.org/1999/xhtml\">\n            <head>\n                <title>"

/-- Template text between `</title>` and the `<h2>` heading (src/app.js:231-235). -/
def xhtmlB : String :=
  "</title>\n                <style>body \x7b font-family: serif; line-height: 1.5; margin: 2em; \x7d</style>\n            </head>\n            <body>\n                "

/-- Template text between the heading and the content (src/app.js:235-237). -/
def xhtmlC : String := "\n                <hr/>\n                "

/-- Template text after the content (src/app.js:237-239). -/
def xhtmlD : String := "\n            </body>\n            </html>"

/-- The `xhtmlContent` built for one chapter (src/app.js:225-239): the
fixed template with the chapter title interpolated twice (title element
and `<h2>` heading) and the `&nbsp;`-cleaned content interpolated once. -/
def chapterXhtml (title content : String) : String :=
  xhtmlA ++ title ++ xhtmlB ++ "<h2>" ++ title ++ "</h2>" ++ xhtmlC ++ replNbspStr content ++ xhtmlD

/-- `manifestItems` after the `forEach` (src/app.js:216, 242). -/
def manifestItems (chapters : List Chapter) : String :=
  "<item id=\"ncx\" href=\"toc.ncx\" media-type=\"application/x-dtbncx+xml\"/>" ++
  String.join (chapters.enum.map (fun ic =>
    "<item id=\"chapter" ++ toString (ic.1 + 1) ++ "\" href=\"chapter" ++ toString (ic.1 + 1) ++ ".html\" media-type=\"application/xhtml+xml\"/>"))

/-- `spineItems` after the `forEach` (src/app.js:217, 243). -/
def spineItems (chapters : List Chapter) : String :=
  String.join (chapters.enum.map (fun ic =>
    "<itemref idref=\"chapter" ++ toString (ic.1 + 1) ++ "\"/>"))

/-- `navMapItems` after the `forEach` (src/app.js:218, 244). -/
def navMapItems (chapters : List Chapter) : String :=
  String.join (chapters.enum.map (fun ic =>
    "<navPoint id=\"navPoint-" ++ toString (ic.1 + 1) ++ "\" playOrder=\"" ++ toString (ic.1 + 1) ++ "\"><navLabel><text>" ++ ic.2.title ++ "</text></navLabel><content src=\"chapter" ++ toString (ic.1 + 1) ++ ".html\"/></navPoint>"))

/-- `opfContent` (src/app.js:247-254). -/
def opfContent (title author : String) (chapters : List Chapter) : String :=
  "<?xml version=\"1.0\" encoding=\"UTF-8\"?>\n        <package xmlns=\"http://www.idpf.org/2007/opf\" unique-identifier=\"BookId\" version=\"2.0\">\n            <metadata xmlns:dc=\"http://purl.org/dc/elements/1.1/\">\n                <dc:title>" ++ title ++ "</dc:title><dc:creator>" ++ author ++ "</dc:creator><dc:language>en</dc:language>\n            </metadata>\n            <manifest>" ++ manifestItems chapters ++ "</manifest>\n            <spine toc=\"ncx\">" ++ spineItems chapters ++ "</spine>\n        </package>"

/-- `ncxContent` (src/app.js:257-262). -/
def ncxContent (title : String) (chapters : List Chapter) : String :=
  "<?xml version=\"1.0\" encoding=\"UTF-8\"?>\n        <ncx xmlns=\"http://www.daisy.org/z3986/2005/ncx/\" version=\"2005-1\">\n            <head><meta name=\"dtb:uid\" content=\"urn:uuid:12345\"/></head>\n            <docTitle><text>" ++ title ++ "</text></docTitle>\n            <navMap>" ++ navMapItems chapters ++ "</navMap>\n        </ncx>"

/-- `generateEpub` (src/app.js:209-266): the named entries added to the
zip, in the order the code adds them: `mimetype` (stored uncompressed),
`META-INF/container.xml`, one `chapter{i}.html` per chapter from the
`forEach`, then `content.opf` and `toc.ncx`. -/
def generateEpub (title author : String) (chapters : List Chapter) : List ZipEntry :=
  [⟨"mimetype", "application/epub+zip", Compression.STORE⟩,
   ⟨"META-INF/container.xml", containerXml, Compression.DEFLATE⟩]
  ++ chapters.enum.map (fun ic =>
      ⟨"chapter" ++ toString (ic.1 + 1) ++ ".html",
       chapterXhtml ic.2.title ic.2.content, Compression.DEFLATE⟩)
  ++ [⟨"content.opf", opfContent title author chapters, Compression.DEFLATE⟩,
      ⟨"toc.ncx", ncxContent title chapters, Compression.DEFLATE⟩]

/-- `processSingleStory` (src/app.js:110-124): fetch the start page for
metadata, run the pagination loop, and hand the one-chapter list to
`generateEpub`.  Any error aborts the run before an archive exists. -/
def processSingleStory (env : String → Except String Doc) (url : String) :
    Except String (List ZipEntry) :=
  match env url with
  | .error e => .error e
  | .ok doc =>
    let meta := extractMetadata doc
    match (fetchAllPagesOfStory env url).2 with
    | .error e => .error e
    | .ok fullContent => .ok (generateEpub meta.1 meta.2 [⟨meta.1, fullContent⟩])

/-! ### Helper lemmas -/

theorem absolutize_http (href : String) :
    startsWithCh "http".data (absolutize href).data = true := by
  unfold absolutize
  by_cases h : startsWithCh "http".data href.data = true
  · simp [h]
  · rw [if_neg (by simpa using h)]
    rw [String.data_append]
    have horigin : ("https://www.literotica.com" : String).data
        = 'h' :: 't' :: 't' :: 'p' :: "s://www.literotica.com".data := rfl
    have hpat : ("http" : String).data = ['h', 't', 't', 'p'] := rfl
    rw [horigin, hpat]
    simp [startsWithCh]

/-! ### C4 / C6 / C7 witnesses' concrete documents -/

/-- A document with one non-matching anchor followed by two matching
anchors (`" Next "` and `"»"`). -/
def twoMatchDoc : Doc :=
  ⟨"", [⟨"home", "", "", "", ""⟩, ⟨" Next ", "", "", "", ""⟩, ⟨"»", "", "", "", ""⟩],
   none, none, none, none, none, none, none, none, none, []⟩

/-- A document on which every selector query comes back empty. -/
def bareDoc : Doc :=
  ⟨"", [], none, none, none, none, none, none, none, none, none, []⟩

/-- A series page document with two chapter links, the first with a
root-relative `href`, the second with an absolute one. -/
def twoLinkSeriesDoc : Doc :=
  ⟨"", [], none, none, none, none, none, none, none, none, none,
   [⟨" Ch One ", "", "", "", "/s/ch-1"⟩,
    ⟨"Ch Two", "", "", "", "https://www.literotica.com/s/ch-2"⟩]⟩

/-- C4: the next-page detector returns the first anchor in document order
satisfying at least one of the six conditions (trimmed lower-cased text
equals "next"; text contains "next »"; text equals "»"; lower-cased class
contains "pager-next"; lower-cased class contains "b-pager-next";
lower-cased title attribute contains "next page"), and no anchor when
none satisfies any; a later matching anchor is ignored in favour of an
earlier one. -/
theorem nextPageDetector_first_match (doc : Doc) :
    (findNextLink doc = none ↔ ∀ a ∈ doc.anchors, isNextAnchor a = false)
    ∧ (∀ a, findNextLink doc = some a →
        isNextAnchor a = true
        ∧ ∃ l1 l2, doc.anchors = l1 ++ a :: l2 ∧ ∀ b ∈ l1, isNextAnchor b = false)
    ∧ (∀ a, isNextAnchor a = true ↔
        (jsLower (jsTrim a.textContent) = "next"
         ∨ strContains (jsLower (jsTrim a.textContent)) "next »" = true
         ∨ jsLower (jsTrim a.textContent) = "»"
         ∨ strContains (jsLower a.className) "pager-next" = true
         ∨ strContains (jsLower a.className) "b-pager-next" = true
         ∨ strContains (jsLower a.titleAttr) "next page" = true)) := by
  refine ⟨?_, ?_, ?_⟩
  · simp only [findNextLink, List.find?_eq_none, Bool.not_eq_true]
  · intro a h
    exact ⟨List.find?_some h, find_first _ _ _ h⟩
  · intro a
    simp only [isNextAnchor, Bool.or_eq_true, beq_iff_eq]
    tauto

/-- Witness for C4 at a concrete document with two matching anchors: the
detector's answer is the earlier match, preceded only by non-matching
anchors. -/
theorem nextPageDetector_first_match_witness :
    isNextAnchor ⟨" Next ", "", "", "", ""⟩ = true
    ∧ ∃ l1 l2, twoMatchDoc.anchors = l1 ++ ⟨" Next ", "", "", "", ""⟩ :: l2
        ∧ ∀ b ∈ l1, isNextAnchor b = false :=
  (nextPageDetector_first_match twoMatchDoc).2.1 ⟨" Next ", "", "", "", ""⟩ (by decide)

/-- C6: a document on which no content-container selector matches makes
`extractStoryContent` fail, while a document on which no title (resp.
author) selector matches makes `extractMetadata` return the sentinel
"Unknown Title" (resp. "Unknown Author") without failing. -/
theorem extract_miss_asymmetry (doc : Doc) :
    (doc.qArticleContent = none → doc.qStoryBodyX = none → doc.qAaHt = none →
      extractStoryContent doc
        = .error "Could not locate story text. The page structure might be unknown or blocked.")
    ∧ (doc.qTitleNew = none → doc.qHeadline = none → doc.qH1 = none →
      (extractMetadata doc).1 = "Unknown Title")
    ∧ (doc.qAuthorNew = none → doc.qYeU = none → doc.qStoryUserY = none →
      (extractMetadata doc).2 = "Unknown Author") := by
  refine ⟨?_, ?_, ?_⟩ <;> intro h1 h2 h3 <;>
    simp [extractStoryContent, extractMetadata, jsStrOr, h1, h2, h3, Option.orElse] <;> decide

/-- Witness for C6 at a document with every query empty. -/
theorem extract_miss_asymmetry_witness :
    extractStoryContent bareDoc
      = .error "Could not locate story text. The page structure might be unknown or blocked."
    ∧ (extractMetadata bareDoc).1 = "Unknown Title"
    ∧ (extractMetadata bareDoc).2 = "Unknown Author" :=
  ⟨(extract_miss_asymmetry bareDoc).1 rfl rfl rfl,
   (extract_miss_asymmetry bareDoc).2.1 rfl rfl rfl,
   (extract_miss_asymmetry bareDoc).2.2 rfl rfl rfl⟩

/-- C7: series enumeration fails with the no-chapters error exactly when
zero elements match the container selector; with `M ≥ 1` matching
elements it yields exactly `M` entries in document order, every entry's
URL starts with "http", and a root-relative `href` gets the fixed site
origin prepended. -/
theorem seriesEnumeration_spec (doc : Doc) :
    (seriesChapterEntries doc = .error "No chapters found on series page."
      ↔ doc.seriesWorks = [])
    ∧ (∀ entries, seriesChapterEntries doc = .ok entries →
        entries.length = doc.seriesWorks.length
        ∧ entries = doc.seriesWorks.map seriesEntryOfLink
        ∧ ∀ e ∈ entries, startsWithCh "http".data e.chapterUrl.data = true)
    ∧ (∀ link : Element, link.href.data.head? = some '/' →
        (seriesEntryOfLink link).chapterUrl = "https://www.literotica.com" ++ link.href) := by
  refine ⟨?_, ?_, ?_⟩
  · by_cases h : doc.seriesWorks = []
    · simp [seriesChapterEntries, h]
    · simp [seriesChapterEntries, List.length_eq_zero, h]
  · intro entries h
    by_cases hw : doc.seriesWorks = []
    · simp [seriesChapterEntries, hw] at h
    · rw [show seriesChapterEntries doc = .ok (doc.seriesWorks.map seriesEntryOfLink) by
        simp [seriesChapterEntries, List.length_eq_zero, hw]] at h
      obtain rfl := (Except.ok.injEq _ _).mp h.symm |>.symm
      refine ⟨by simp, rfl, ?_⟩
      intro e he
      obtain ⟨link, _, rfl⟩ := List.mem_map.mp he
      exact absolutize_http link.href
  · intro link hhead
    obtain ⟨c, t, hdata⟩ : ∃ c t, link.href.data = c :: t := by
      cases hd : link.href.data with
      | nil => rw [hd] at hhead; simp at hhead
      | cons c t => exact ⟨c, t, rfl⟩
    rw [hdata] at hhead
    simp only [List.head?_cons, Option.some_inj] at hhead
    show absolutize link.href = _
    unfold absolutize
    rw [if_neg]
    rw [show ("http" : String).data = 'h' :: 't' :: 't' :: 'p' :: [] from rfl, hdata, hhead]
    simp [startsWithCh]

/-- Witness for C7 at a concrete two-link series page. -/
theorem seriesEnumeration_spec_witness :
    ([⟨"Ch One", "https://www.literotica.com/s/ch-1"⟩,
      ⟨"Ch Two", "https://www.literotica.com/s/ch-2"⟩] : List SeriesEntry).length
        = twoLinkSeriesDoc.seriesWorks.length
    ∧ ([⟨"Ch One", "https://www.literotica.com/s/ch-1"⟩,
        ⟨"Ch Two", "https://www.literotica.com/s/ch-2"⟩] : List SeriesEntry)
        = twoLinkSeriesDoc.seriesWorks.map seriesEntryOfLink
    ∧ ∀ e ∈ ([⟨"Ch One", "https://www.literotica.com/s/ch-1"⟩,
        ⟨"Ch Two", "https://www.literotica.com/s/ch-2"⟩] : List SeriesEntry),
        startsWithCh "http".data e.chapterUrl.data = true :=
  (seriesEnumeration_spec twoLinkSeriesDoc).2.1
    [⟨"Ch One", "https://www.literotica.com/s/ch-1"⟩,
     ⟨"Ch Two", "https://www.literotica.com/s/ch-2"⟩] (by rfl)

/-! ### Encoding length lemmas (for C10) -/

theorem encodeChar_len (c : Char) : 1 ≤ (encodeChar c).length := by
  unfold encodeChar
  split
  · simp
  · unfold utf8Bytes
    split_ifs <;> simp [pctByte]

theorem encode_len (s : String) :
    s.data.length ≤ (encodeURIComponent s).data.length := by
  show s.data.length ≤ ((s.data.map encodeChar).flatten).length
  induction s.data with
  | nil => simp
  | cons c cs ih =>
    have := encodeChar_len c
    simp only [List.map_cons, List.flatten_cons, List.length_append, List.length_cons]
    omega

/-- The network and parser used by the C5 witness: a 200 response whose
parsed document's title is an anti-bot challenge title. -/
def blockedNet : String → HttpResponse := fun _ => ⟨true, 200, "challenge"⟩

/-- Parser for the C5 witness. -/
def blockedParse : String → Doc := fun _ =>
  ⟨"Just a moment...", [], none, none, none, none, none, none, none, none, none, []⟩

/-- C5: a fetched document whose title contains "Just a moment" makes
`fetchPage` fail with the Cloudflare-blocked error, a value distinct from
every non-2xx-status error (`Network error: HTTP Error: {status}`), and
this failure makes the single-story run fail before any archive is
produced. -/
theorem blocked_page_aborts (net : String → HttpResponse) (parse : String → Doc)
    (now : Nat) (url : String)
    (hok : (net (fetchTarget url now)).ok = true)
    (hblocked : strContains (parse (net (fetchTarget url now)).text).title "Just a moment" = true) :
    fetchPage net parse now url
      = .error "Network error: Blocked by Cloudflare protection. Try a different network."
    ∧ (∀ status : Nat,
        ("Network error: Blocked by Cloudflare protection. Try a different network." : String)
          ≠ "Network error: HTTP Error: " ++ toString status)
    ∧ processSingleStory (fetchPage net parse now) url
        = .error "Network error: Blocked by Cloudflare protection. Try a different network." := by
  have h1 : fetchPage net parse now url
      = .error "Network error: Blocked by Cloudflare protection. Try a different network." := by
    show (let targetUrl := fetchTarget url now; _) = _
    simp only [fetchPage, hok, hblocked, Bool.not_true, Bool.true_or, if_true, if_false,
      Bool.false_eq_true, reduceIte]
    rfl
  refine ⟨h1, ?_, ?_⟩
  · intro status h
    have hd := congrArg String.data h
    rw [String.data_append] at hd
    have h15 : (("Network error: Blocked by Cloudflare protection. Try a different network." : String).data)[15]? = some 'B' := rfl
    rw [hd] at h15
    rw [List.getElem?_append_left (by decide)] at h15
    exact absurd h15 (by decide)
  · simp [processSingleStory, h1]

/-- Witness for C5 at a concrete blocked page. -/
theorem blocked_page_aborts_witness :
    fetchPage blockedNet blockedParse 0 "https://www.literotica.com/s/a"
      = .error "Network error: Blocked by Cloudflare protection. Try a different network."
    ∧ processSingleStory (fetchPage blockedNet blockedParse 0) "https://www.literotica.com/s/a"
      = .error "Network error: Blocked by Cloudflare protection. Try a different network." :=
  ⟨(blocked_page_aborts blockedNet blockedParse 0 "https://www.literotica.com/s/a"
      rfl (by decide)).1,
   (blocked_page_aborts blockedNet blockedParse 0 "https://www.literotica.com/s/a"
      rfl (by decide)).2.2⟩

/-- C10: every request is issued for the CORS-proxied, percent-encoded,
cache-busted form of the caller's URL — the proxy prefix concatenated
with the percent-encoding of the URL plus a `t={timestamp}` parameter
joined with `&` when the URL already has a query string and `?`
otherwise — and never for the bare caller-supplied URL itself.  All
requests (the pagination loop's page-1 request included) go through
`fetchPage`, whose request URL this is. -/
theorem proxied_request_spec (url : String) (now : Nat) :
    fetchTarget url now
      = CORS_PROXY ++ encodeURIComponent
          (url ++ (if strContains url "?" then "&t=" ++ toString now
                   else "?t=" ++ toString now))
    ∧ fetchTarget url now ≠ url := by
  refine ⟨rfl, ?_⟩
  have key : url.data.length < (fetchTarget url now).data.length := by
    have e1 : fetchTarget url now
        = CORS_PROXY ++ encodeURIComponent
            (url ++ (if strContains url "?" then "&t=" ++ toString now
                     else "?t=" ++ toString now)) := rfl
    rw [e1, String.data_append, List.length_append]
    have hc : CORS_PROXY.data.length = 22 := rfl
    by_cases hq : strContains url "?" = true
    · have henc := encode_len (url ++ ("&t=" ++ toString now))
      rw [String.data_append, List.length_append] at henc
      simp only [hq, if_true]
      omega
    · have henc := encode_len (url ++ ("?t=" ++ toString now))
      rw [String.data_append, List.length_append] at henc
      simp only [hq, if_false, Bool.false_eq_true, reduceIte]
      omega
  intro h
  rw [h] at key
  exact absurd key (lt_irrefl _)

/-- Witness for C10 at a concrete URL that already carries a query
string. -/
theorem proxied_request_spec_witness :
    fetchTarget "https://www.literotica.com/s/a?page=2" 42
      ≠ "https://www.literotica.com/s/a?page=2" :=
  (proxied_request_spec "https://www.literotica.com/s/a?page=2" 42).2

/-! ### Characterization of the `&nbsp;` replacement (for C9) -/

theorem startsWithCh_drop :
    ∀ (pat l : List Char), startsWithCh pat l = true → pat ++ l.drop pat.length = l := by
  intro pat
  induction pat with
  | nil => intro l _; simp
  | cons p ps ih =>
    intro l h
    cases l with
    | nil => simp [startsWithCh] at h
    | cons c cs =>
      simp only [startsWithCh, Bool.and_eq_true, beq_iff_eq] at h
      obtain ⟨rfl, h2⟩ := h
      simpa using ih cs h2

theorem splitNbsp_ne_nil (l : List Char) : splitNbsp l ≠ [] := by
  rcases l with _ | ⟨c, cs⟩
  · simp [splitNbsp]
  · rw [splitNbsp]
    split
    · simp
    · split <;> simp

theorem joinSep_splitNbsp :
    ∀ (n : Nat) (l : List Char), l.length ≤ n →
      joinSep nbspPat (splitNbsp l) = l := by
  intro n
  induction n with
  | zero =>
    intro l h
    obtain rfl : l = [] := List.eq_nil_of_length_eq_zero (Nat.le_zero.mp h)
    simp [splitNbsp, joinSep]
  | succ n ih =>
    intro l hl
    rcases l with _ | ⟨c, cs⟩
    · simp [splitNbsp, joinSep]
    · rw [splitNbsp]
      by_cases h : startsWithCh nbspPat (c :: cs) = true
      · rw [if_pos h]
        obtain ⟨s, rest, hS⟩ : ∃ s rest, splitNbsp (cs.drop 5) = s :: rest := by
          rcases hS : splitNbsp (cs.drop 5) with _ | ⟨s, rest⟩
          · exact absurd hS (splitNbsp_ne_nil _)
          · exact ⟨s, rest, rfl⟩
        have hihs : joinSep nbspPat (splitNbsp (cs.drop 5)) = cs.drop 5 := by
          apply ih
          have h1 : cs.length ≤ n := by simpa using hl
          have h2 : (cs.drop 5).length = cs.length - 5 := List.length_drop 5 cs
          omega
        rw [hS] at hihs ⊢
        show [] ++ nbspPat ++ joinSep nbspPat (s :: rest) = c :: cs
        rw [hihs]
        have hsw := startsWithCh_drop nbspPat (c :: cs) h
        simpa using hsw
      · rw [if_neg h]
        obtain ⟨s, rest, hS⟩ : ∃ s rest, splitNbsp cs = s :: rest := by
          rcases hS : splitNbsp cs with _ | ⟨s, rest⟩
          · exact absurd hS (splitNbsp_ne_nil _)
          · exact ⟨s, rest, rfl⟩
        have hihs : joinSep nbspPat (splitNbsp cs) = cs := by
          apply ih; simpa using hl
        rw [hS] at hihs ⊢
        rcases rest with _ | ⟨r, rs⟩
        · show c :: s = c :: cs
          simp only [joinSep] at hihs
          rw [hihs]
        · show (c :: s) ++ nbspPat ++ joinSep nbspPat (r :: rs) = c :: cs
          simp only [joinSep] at hihs
          rw [← hihs]
          simp

theorem replNbsp_joinSep :
    ∀ (n : Nat) (l : List Char), l.length ≤ n →
      replNbsp l = joinSep [' '] (splitNbsp l) := by
  intro n
  induction n with
  | zero =>
    intro l h
    obtain rfl : l = [] := List.eq_nil_of_length_eq_zero (Nat.le_zero.mp h)
    simp [splitNbsp, replNbsp, joinSep]
  | succ n ih =>
    intro l hl
    rcases l with _ | ⟨c, cs⟩
    · simp [splitNbsp, replNbsp, joinSep]
    · rw [splitNbsp, replNbsp]
      by_cases h : startsWithCh nbspPat (c :: cs) = true
      · rw [if_pos h, if_pos h]
        obtain ⟨s, rest, hS⟩ : ∃ s rest, splitNbsp (cs.drop 5) = s :: rest := by
          rcases hS : splitNbsp (cs.drop 5) with _ | ⟨s, rest⟩
          · exact absurd hS (splitNbsp_ne_nil _)
          · exact ⟨s, rest, rfl⟩
        have hihs : replNbsp (cs.drop 5) = joinSep [' '] (splitNbsp (cs.drop 5)) := by
          apply ih
          have h1 : cs.length ≤ n := by simpa using hl
          have h2 : (cs.drop 5).length = cs.length - 5 := List.length_drop 5 cs
          omega
        rw [hS] at hihs ⊢
        show ' ' :: replNbsp (cs.drop 5) = [] ++ [' '] ++ joinSep [' '] (s :: rest)
        rw [hihs]
        simp
      · rw [if_neg h, if_neg h]
        obtain ⟨s, rest, hS⟩ : ∃ s rest, splitNbsp cs = s :: rest := by
          rcases hS : splitNbsp cs with _ | ⟨s, rest⟩
          · exact absurd hS (splitNbsp_ne_nil _)
          · exact ⟨s, rest, rfl⟩
        have hihs : replNbsp cs = joinSep [' '] (splitNbsp cs) := by
          apply ih; simpa using hl
        rw [hS] at hihs ⊢
        rcases rest with _ | ⟨r, rs⟩
        · show c :: replNbsp cs = c :: s
          simp only [joinSep] at hihs
          rw [hihs]
        · show c :: replNbsp cs = (c :: s) ++ [' '] ++ joinSep [' '] (r :: rs)
          simp only [joinSep] at hihs
          rw [hihs]
          simp

theorem replNbsp_id_of_no_nbsp :
    ∀ l : List Char, containsCh nbspPat l = false → replNbsp l = l := by
  intro l
  induction l with
  | nil => intro _; simp [replNbsp]
  | cons c cs ih =>
    intro h
    simp only [containsCh, Bool.or_eq_false_iff] at h
    rw [replNbsp, if_neg (by simp [h.1]), ih h.2]

/-! ### Pagination loop lemmas (for C1, C2, C8) -/

/-- The URLs the loop requests for pages `p, p+1, ..., p+n-1`. -/
def urlList (b : String) (p : Nat) : Nat → List String
  | 0 => []
  | n + 1 => pageUrl b p :: urlList b (p + 1) n

/-- `separator ++ frag p ++ separator ++ frag (p+1) ++ ...`, for `n`
consecutive page fragments starting at page `p`. -/
def sepConcat (frag : Nat → String) (p : Nat) : Nat → String
  | 0 => ""
  | n + 1 => separator ++ (frag p ++ sepConcat frag (p + 1) n)

theorem urlList_length (b : String) : ∀ (n p : Nat), (urlList b p n).length = n := by
  intro n
  induction n with
  | zero => intro p; rfl
  | succ n ih => intro p; simp [urlList, ih]

theorem paginateFrom_step_none (env : String → Except String Doc) (b : String)
    (p : Nat) (a : String) (doc : Doc) (content : String) (hp : p ≤ 50)
    (henv : env (pageUrl b p) = .ok doc)
    (hext : extractStoryContent doc = .ok content)
    (hnext : findNextLink doc = none) :
    paginateFrom env b p a
      = ([pageUrl b p], .ok (if p = 1 then content else a ++ separator ++ content)) := by
  rw [paginateFrom.eq_def, dif_pos (show p ≤ MAX_PAGES from hp)]
  simp [henv, hext, hnext]

theorem paginateFrom_step_some (env : String → Except String Doc) (b : String)
    (p : Nat) (a : String) (doc : Doc) (content : String) (x : Element) (hp : p ≤ 50)
    (henv : env (pageUrl b p) = .ok doc)
    (hext : extractStoryContent doc = .ok content)
    (hnext : findNextLink doc = some x) :
    paginateFrom env b p a
      = (pageUrl b p
          :: (paginateFrom env b (p + 1) (if p = 1 then content else a ++ separator ++ content)).1,
         (paginateFrom env b (p + 1) (if p = 1 then content else a ++ separator ++ content)).2) := by
  rw [paginateFrom.eq_def, dif_pos (show p ≤ MAX_PAGES from hp)]
  simp [henv, hext, hnext]

theorem paginateFrom_stop (env : String → Except String Doc) (b : String)
    (p : Nat) (a : String) (hp : 50 < p) :
    paginateFrom env b p a = ([], .ok a) := by
  rw [paginateFrom.eq_def, dif_neg (show ¬ p ≤ MAX_PAGES by unfold MAX_PAGES; omega)]

theorem paginate_chain (env : String → Except String Doc) (docs : Nat → Doc)
    (frag : Nat → String) (b : String) :
    ∀ (n p : Nat) (a : String), 2 ≤ p → p + n ≤ 50 →
      (∀ i, p ≤ i → i ≤ p + n → env (pageUrl b i) = .ok (docs i)) →
      (∀ i, p ≤ i → i ≤ p + n → extractStoryContent (docs i) = .ok (frag i)) →
      (∀ i, p ≤ i → i < p + n → (findNextLink (docs i)).isSome = true) →
      findNextLink (docs (p + n)) = none →
      paginateFrom env b p a = (urlList b p (n + 1), .ok (a ++ sepConcat frag p (n + 1))) := by
  intro n
  induction n with
  | zero =>
    intro p a hp hle henv hext _ hlast
    rw [paginateFrom_step_none env b p a (docs p) (frag p) (by omega)
        (henv p le_rfl (by omega)) (hext p le_rfl (by omega)) (by simpa using hlast)]
    rw [if_neg (by omega)]
    show _ = (urlList b p 1, .ok (a ++ (separator ++ (frag p ++ sepConcat frag (p + 1) 0))))
    rw [show sepConcat frag (p + 1) 0 = "" from rfl, String.append_empty,
      ← String.append_assoc]
    rfl
  | succ n ih =>
    intro p a hp hle henv hext hnext hlast
    obtain ⟨x, hx⟩ : ∃ x, findNextLink (docs p) = some x := by
      have := hnext p le_rfl (by omega)
      exact Option.isSome_iff_exists.mp this
    rw [paginateFrom_step_some env b p a (docs p) (frag p) x (by omega)
        (henv p le_rfl (by omega)) (hext p le_rfl (by omega)) hx]
    rw [if_neg (by omega)]
    have hrec := ih (p + 1) (a ++ separator ++ frag p) (by omega) (by omega)
      (fun i h1 h2 => henv i (by omega) (by omega))
      (fun i h1 h2 => hext i (by omega) (by omega))
      (fun i h1 h2 => hnext i (by omega) (by omega))
      (by rw [show p + 1 + n = p + (n + 1) by omega]; exact hlast)
    rw [hrec]
    show (urlList b p (n + 1 + 1), _) = _
    refine Prod.ext rfl ?_
    show Except.ok (a ++ separator ++ frag p ++ sepConcat frag (p + 1) (n + 1))
        = Except.ok (a ++ (separator ++ (frag p ++ sepConcat frag (p + 1) (n + 1))))
    rw [String.append_assoc, String.append_assoc]

theorem paginateFrom_step_fetch_error (env : String → Except String Doc) (b : String)
    (p : Nat) (a : String) (e : String) (hp : p ≤ 50)
    (henv : env (pageUrl b p) = .error e) :
    paginateFrom env b p a = ([pageUrl b p], .error e) := by
  rw [paginateFrom.eq_def, dif_pos (show p ≤ MAX_PAGES from hp)]
  simp [henv]

theorem paginateFrom_step_extract_error (env : String → Except String Doc) (b : String)
    (p : Nat) (a : String) (doc : Doc) (e : String) (hp : p ≤ 50)
    (henv : env (pageUrl b p) = .ok doc)
    (hext : extractStoryContent doc = .error e) :
    paginateFrom env b p a = ([pageUrl b p], .error e) := by
  rw [paginateFrom.eq_def, dif_pos (show p ≤ MAX_PAGES from hp)]
  simp [henv, hext]

theorem paginateFrom_len (env : String → Except String Doc) (b : String) :
    ∀ (m p : Nat) (a : String), 51 ≤ p + m → (paginateFrom env b p a).1.length ≤ m := by
  intro m
  induction m with
  | zero => intro p a h; rw [paginateFrom_stop env b p a (by omega)]; simp
  | succ m ih =>
    intro p a h
    by_cases hp : p ≤ 50
    case neg => rw [paginateFrom_stop env b p a (by omega)]; simp
    case pos =>
    cases henv : env (pageUrl b p) with
    | error e => rw [paginateFrom_step_fetch_error env b p a e hp henv]; simp
    | ok doc =>
      cases hext : extractStoryContent doc with
      | error e => rw [paginateFrom_step_extract_error env b p a doc e hp henv hext]; simp
      | ok content =>
        cases hnext : findNextLink doc with
        | none =>
          rw [paginateFrom_step_none env b p a doc content hp henv hext hnext]; simp
        | some x =>
          rw [paginateFrom_step_some env b p a doc content x hp henv hext hnext]
          have := ih (p + 1) (if p = 1 then content else a ++ separator ++ content) (by omega)
          simp only [List.length_cons]
          omega

theorem paginateFrom_urls (env : String → Except String Doc) (b : String) :
    ∀ (m p : Nat) (a : String) (j : Nat) (u : String), 51 ≤ p + m →
      (paginateFrom env b p a).1[j]? = some u → u = pageUrl b (p + j) := by
  intro m
  induction m with
  | zero =>
    intro p a j u h hj
    rw [paginateFrom_stop env b p a (by omega)] at hj
    simp at hj
  | succ m ih =>
    intro p a j u h hj
    by_cases hp : p ≤ 50
    case neg =>
      rw [paginateFrom_stop env b p a (by omega)] at hj
      simp at hj
    case pos =>
    cases henv : env (pageUrl b p) with
    | error e =>
      rw [paginateFrom_step_fetch_error env b p a e hp henv] at hj
      match j with
      | 0 => simp at hj; exact hj.symm
      | j + 1 => simp at hj
    | ok doc =>
      cases hext : extractStoryContent doc with
      | error e =>
        rw [paginateFrom_step_extract_error env b p a doc e hp henv hext] at hj
        match j with
        | 0 => simp at hj; exact hj.symm
        | j + 1 => simp at hj
      | ok content =>
        cases hnext : findNextLink doc with
        | none =>
          rw [paginateFrom_step_none env b p a doc content hp henv hext hnext] at hj
          match j with
          | 0 => simp at hj; exact hj.symm
          | j + 1 => simp at hj
        | some x =>
          rw [paginateFrom_step_some env b p a doc content x hp henv hext hnext] at hj
          match j with
          | 0 => simp at hj; exact hj.symm
          | j + 1 =>
            simp only [List.getElem?_cons_succ] at hj
            have := ih (p + 1) (if p = 1 then content else a ++ separator ++ content)
              j u (by omega) hj
            rw [this]
            exact congrArg (pageUrl b) (by omega)

theorem paginateFrom_first (env : String → Except String Doc) (b : String)
    (p : Nat) (a : String) (hp : p ≤ 50) :
    (paginateFrom env b p a).1[0]? = some (pageUrl b p) := by
  cases henv : env (pageUrl b p) with
  | error e => rw [paginateFrom_step_fetch_error env b p a e hp henv]; simp
  | ok doc =>
    cases hext : extractStoryContent doc with
    | error e => rw [paginateFrom_step_extract_error env b p a doc e hp henv hext]; simp
    | ok content =>
      cases hnext : findNextLink doc with
      | none => rw [paginateFrom_step_none env b p a doc content hp henv hext hnext]; simp
      | some x => rw [paginateFrom_step_some env b p a doc content x hp henv hext hnext]; simp

theorem paginate_chain_all (env : String → Except String Doc) (docs : Nat → Doc)
    (frag : Nat → String) (b : String) :
    ∀ (m p : Nat) (a : String), 2 ≤ p → p + m = 51 →
      (∀ i, p ≤ i → i ≤ 50 → env (pageUrl b i) = .ok (docs i)) →
      (∀ i, p ≤ i → i ≤ 50 → extractStoryContent (docs i) = .ok (frag i)) →
      (∀ i, p ≤ i → i ≤ 50 → (findNextLink (docs i)).isSome = true) →
      paginateFrom env b p a = (urlList b p m, .ok (a ++ sepConcat frag p m)) := by
  intro m
  induction m with
  | zero =>
    intro p a hp h51 _ _ _
    rw [paginateFrom_stop env b p a (by omega)]
    show ([], Except.ok a) = ([], Except.ok (a ++ ""))
    rw [String.append_empty]
  | succ m ih =>
    intro p a hp h51 henv hext hnext
    obtain ⟨x, hx⟩ := Option.isSome_iff_exists.mp (hnext p le_rfl (by omega))
    rw [paginateFrom_step_some env b p a (docs p) (frag p) x (by omega)
        (henv p le_rfl (by omega)) (hext p le_rfl (by omega)) hx]
    rw [if_neg (by omega)]
    rw [ih (p + 1) (a ++ separator ++ frag p) (by omega) (by omega)
        (fun i h1 h2 => henv i (by omega) h2)
        (fun i h1 h2 => hext i (by omega) h2)
        (fun i h1 h2 => hnext i (by omega) h2)]
    refine Prod.ext rfl ?_
    show Except.ok (a ++ separator ++ frag p ++ sepConcat frag (p + 1) m)
        = Except.ok (a ++ (separator ++ (frag p ++ sepConcat frag (p + 1) m)))
    rw [String.append_assoc, String.append_assoc]

/-- C1: for a chapter of K physical pages (1 ≤ K ≤ 50) where pages
1..K-1 carry a detectable next-link and page K does not, the pagination
loop fetches exactly the K page URLs in order (the K-th fetched page
being the one without a next-link), and returns page 1's extracted
fragment followed, for each page i = 2..K, by the fixed separator marker
and then page i's fragment, in fetch order. -/
theorem pagination_exact_K (env : String → Except String Doc) (docs : Nat → Doc)
    (frag : Nat → String) (startUrl : String) (K : Nat)
    (hK1 : 1 ≤ K) (hK50 : K ≤ 50)
    (henv : ∀ i, 1 ≤ i → i ≤ K → env (pageUrl (stripQuery startUrl) i) = .ok (docs i))
    (hext : ∀ i, 1 ≤ i → i ≤ K → extractStoryContent (docs i) = .ok (frag i))
    (hnext : ∀ i, 1 ≤ i → i < K → (findNextLink (docs i)).isSome = true)
    (hlast : findNextLink (docs K) = none) :
    fetchAllPagesOfStory env startUrl
      = (urlList (stripQuery startUrl) 1 K, .ok (frag 1 ++ sepConcat frag 2 (K - 1)))
    ∧ (urlList (stripQuery startUrl) 1 K).length = K := by
  refine ⟨?_, urlList_length _ _ _⟩
  obtain ⟨M, rfl⟩ : ∃ M, K = M + 1 := ⟨K - 1, by omega⟩
  unfold fetchAllPagesOfStory
  by_cases hM : M = 0
  · subst hM
    rw [paginateFrom_step_none env (stripQuery startUrl) 1 "" (docs 1) (frag 1) (by omega)
        (henv 1 le_rfl (by omega)) (hext 1 le_rfl (by omega)) hlast]
    rw [if_pos rfl]
    show ([pageUrl (stripQuery startUrl) 1], Except.ok (frag 1))
        = (urlList (stripQuery startUrl) 1 1, Except.ok (frag 1 ++ ""))
    rw [String.append_empty]
    rfl
  · obtain ⟨x, hx⟩ := Option.isSome_iff_exists.mp (hnext 1 le_rfl (by omega))
    rw [paginateFrom_step_some env (stripQuery startUrl) 1 "" (docs 1) (frag 1) x (by omega)
        (henv 1 le_rfl (by omega)) (hext 1 le_rfl (by omega)) hx]
    rw [if_pos rfl]
    have hchain := paginate_chain env docs frag (stripQuery startUrl) (M - 1) 2 (frag 1)
      le_rfl (by omega)
      (fun i h1 h2 => henv i (by omega) (by omega))
      (fun i h1 h2 => hext i (by omega) (by omega))
      (fun i h1 h2 => hnext i (by omega) (by omega))
      (by rw [show 2 + (M - 1) = M + 1 by omega]; exact hlast)
    rw [hchain, show M - 1 + 1 = M by omega]
    show (urlList (stripQuery startUrl) 1 (M + 1), _) = _
    rw [show M + 1 - 1 = M by omega]

/-- The two page documents of the C1 witness: page 1 has a "Next" anchor
and content "P1", page 2 has no anchors and content "P2". -/
def c1Docs : Nat → Doc := fun i =>
  if i = 2 then
    ⟨"", [], some ⟨"", "P2", "", "", ""⟩, none, none, none, none, none, none, none, none, []⟩
  else
    ⟨"", [⟨"Next", "", "", "", ""⟩], some ⟨"", "P1", "", "", ""⟩,
     none, none, none, none, none, none, none, none, []⟩

/-- The page fragments of the C1 witness. -/
def c1Frag : Nat → String := fun i => if i = 2 then "P2" else "P1"

/-- The network of the C1 witness. -/
def c1Env : String → Except String Doc := fun u =>
  if u = "https://x/s?page=2" then .ok (c1Docs 2) else .ok (c1Docs 1)

/-- Witness for C1: a two-page chapter whose start URL carries a query
string. -/
theorem pagination_exact_K_witness :
    fetchAllPagesOfStory c1Env "https://x/s?old=1"
      = (urlList (stripQuery "https://x/s?old=1") 1 2,
         .ok (c1Frag 1 ++ sepConcat c1Frag 2 1))
    ∧ (urlList (stripQuery "https://x/s?old=1") 1 2).length = 2 :=
  pagination_exact_K c1Env c1Docs c1Frag "https://x/s?old=1" 2 (by omega) (by omega)
    (fun i h1 h2 => by interval_cases i <;> rfl)
    (fun i h1 h2 => by interval_cases i <;> rfl)
    (fun i h1 h2 => by interval_cases i; decide)
    (by decide)

/-- C2: when every fetched page advertises a next-link, the loop stops
after exactly 50 fetches without an error, returning all 50 fragments
concatenated (separator-joined, in fetch order); moreover no execution
of the loop, for any environment and start URL, performs more than 50
fetches. -/
theorem pagination_hits_cap (env : String → Except String Doc) (docs : Nat → Doc)
    (frag : Nat → String) (startUrl : String)
    (henv : ∀ i, 1 ≤ i → i ≤ 50 → env (pageUrl (stripQuery startUrl) i) = .ok (docs i))
    (hext : ∀ i, 1 ≤ i → i ≤ 50 → extractStoryContent (docs i) = .ok (frag i))
    (hnext : ∀ i, 1 ≤ i → i ≤ 50 → (findNextLink (docs i)).isSome = true) :
    fetchAllPagesOfStory env startUrl
      = (urlList (stripQuery startUrl) 1 50, .ok (frag 1 ++ sepConcat frag 2 49))
    ∧ (urlList (stripQuery startUrl) 1 50).length = 50
    ∧ ∀ (env' : String → Except String Doc) (u : String),
        (fetchAllPagesOfStory env' u).1.length ≤ 50 := by
  refine ⟨?_, urlList_length _ _ _, ?_⟩
  · unfold fetchAllPagesOfStory
    obtain ⟨x, hx⟩ := Option.isSome_iff_exists.mp (hnext 1 le_rfl (by omega))
    rw [paginateFrom_step_some env (stripQuery startUrl) 1 "" (docs 1) (frag 1) x (by omega)
        (henv 1 le_rfl (by omega)) (hext 1 le_rfl (by omega)) hx]
    rw [if_pos rfl]
    rw [paginate_chain_all env docs frag (stripQuery startUrl) 49 2 (frag 1)
        le_rfl (by omega)
        (fun i h1 h2 => henv i (by omega) h2)
        (fun i h1 h2 => hext i (by omega) h2)
        (fun i h1 h2 => hnext i (by omega) h2)]
    rfl
  · intro env' u
    unfold fetchAllPagesOfStory
    exact paginateFrom_len env' (stripQuery u) 50 1 "" (by omega)

/-- The single page document of the C2 witness: content "P" and a
"Next" anchor on every page. -/
def cycDoc : Doc :=
  ⟨"", [⟨"Next", "", "", "", ""⟩], some ⟨"", "P", "", "", ""⟩,
   none, none, none, none, none, none, none, none, []⟩

/-- The network of the C2 witness: every URL serves `cycDoc`. -/
def cycEnv : String → Except String Doc := fun _ => .ok cycDoc

/-- Witness for C2: a synthetic chain that never stops advertising a
next-link. -/
theorem pagination_hits_cap_witness :
    fetchAllPagesOfStory cycEnv "https://x/s"
      = (urlList (stripQuery "https://x/s") 1 50,
         .ok ((fun _ => ("P" : String)) 1 ++ sepConcat (fun _ => "P") 2 49))
    ∧ (urlList (stripQuery "https://x/s") 1 50).length = 50 :=
  ⟨(pagination_hits_cap cycEnv (fun _ => cycDoc) (fun _ => "P") "https://x/s"
      (fun _ _ _ => rfl) (fun _ _ _ => rfl)
      (fun _ _ _ => (by decide : (findNextLink cycDoc).isSome = true))).1,
   (pagination_hits_cap cycEnv (fun _ => cycDoc) (fun _ => "P") "https://x/s"
      (fun _ _ _ => rfl) (fun _ _ _ => rfl)
      (fun _ _ _ => (by decide : (findNextLink cycDoc).isSome = true))).2.1⟩

/-- C8: the loop strips any existing query string from the start URL
(the base URL is the `?`-free first chunk of the start URL), requests
page 1 at the bare base URL, and requests every fetched page j+1 at
`pageUrl base (j+1)`, where page 1's URL is the base itself and page
n > 1's URL is `{base}?page={n}`. -/
theorem pagination_url_scheme (env : String → Except String Doc) (startUrl : String) :
    (∀ c ∈ (stripQuery startUrl).data, c ≠ '?')
    ∧ stripQuery startUrl ++ String.mk (startUrl.data.dropWhile (fun c => c ≠ '?')) = startUrl
    ∧ (fetchAllPagesOfStory env startUrl).1[0]? = some (stripQuery startUrl)
    ∧ (∀ j u, (fetchAllPagesOfStory env startUrl).1[j]? = some u
        → u = pageUrl (stripQuery startUrl) (j + 1))
    ∧ pageUrl (stripQuery startUrl) 1 = stripQuery startUrl
    ∧ (∀ n, 1 < n → pageUrl (stripQuery startUrl) n
        = stripQuery startUrl ++ "?page=" ++ toString n) := by
  refine ⟨?_, ?_, ?_, ?_, rfl, ?_⟩
  · intro c hc
    simpa using List.mem_takeWhile_imp hc
  · apply String.ext
    rw [String.data_append]
    show startUrl.data.takeWhile (fun c => decide (c ≠ '?'))
        ++ startUrl.data.dropWhile (fun c => decide (c ≠ '?')) = startUrl.data
    exact List.takeWhile_append_dropWhile _ _
  · have h := paginateFrom_first env (stripQuery startUrl) 1 "" (by omega)
    simpa [pageUrl] using h
  · intro j u hj
    have h := paginateFrom_urls env (stripQuery startUrl) 50 1 "" j u (by omega) hj
    rw [h]
    exact congrArg (pageUrl (stripQuery startUrl)) (by omega)
  · intro n hn
    rw [pageUrl, if_neg (by omega)]

/-- Witness for C8: the concrete consequences at a query-carrying start
URL and a concrete environment. -/
theorem pagination_url_scheme_witness :
    (fetchAllPagesOfStory cycEnv "https://x/s?q=1").1[0]?
      = some (stripQuery "https://x/s?q=1")
    ∧ pageUrl (stripQuery "https://x/s?q=1") 1 = stripQuery "https://x/s?q=1"
    ∧ stripQuery "https://x/s?q=1" = "https://x/s"
    ∧ pageUrl (stripQuery "https://x/s?q=1") 2 = "https://x/s?page=2" :=
  ⟨(pagination_url_scheme cycEnv "https://x/s?q=1").2.2.1,
   (pagination_url_scheme cycEnv "https://x/s?q=1").2.2.2.2.1,
   by decide,
   by trans (stripQuery "https://x/s?q=1" ++ "?page=" ++ toString 2)
      · exact (pagination_url_scheme cycEnv "https://x/s?q=1").2.2.2.2.2 2 (by omega)
      · decide⟩

/-- C9: the per-chapter content document is the fixed template with a
heading echoing the chapter title followed (after the fixed `<hr/>`
markup) by the chapter's content fragment, the content being the input
with each left-to-right non-overlapping occurrence of `&nbsp;` replaced
by one literal space and nothing else changed: the input splits into
segments joined by `&nbsp;` and the emitted content is exactly the same
segments joined by a space; in particular content free of `&nbsp;` is
reproduced verbatim. -/
theorem chapter_doc_nbsp_only_transform (title content : String) :
    chapterXhtml title content
      = (xhtmlA ++ title ++ xhtmlB) ++ ("<h2>" ++ title ++ "</h2>")
        ++ (xhtmlC ++ replNbspStr content ++ xhtmlD)
    ∧ (replNbspStr content).data = joinSep [' '] (splitNbsp content.data)
    ∧ joinSep nbspPat (splitNbsp content.data) = content.data
    ∧ (containsCh nbspPat content.data = false → replNbspStr content = content) := by
  refine ⟨?_, ?_, ?_, ?_⟩
  · simp only [chapterXhtml, String.append_assoc]
  · exact replNbsp_joinSep content.data.length content.data le_rfl
  · exact joinSep_splitNbsp content.data.length content.data le_rfl
  · intro h
    show String.mk (replNbsp content.data) = content
    rw [replNbsp_id_of_no_nbsp content.data h]

/-- Witness for C9: `&nbsp;`-free content passes through verbatim. -/
theorem chapter_doc_nbsp_only_transform_witness :
    replNbspStr "<p>x</p>" = "<p>x</p>" :=
  (chapter_doc_nbsp_only_transform "C1" "<p>x</p>").2.2.2 (by decide)

/-- Counterexample for C3 as stated: the archive for a 1-chapter list
has 5 named entries (`mimetype`, `META-INF/container.xml`,
`chapter1.html`, `content.opf`, `toc.ncx`), not 1 + 3 = 4. -/
theorem epub_entry_count_counterexample :
    ¬ ((generateEpub "T" "A" [⟨"C1", "<p>x</p>"⟩]).length = 1 + 3) := by decide

/-- C3 (amended): for every title, author and non-empty chapter list of
length N, the archive has exactly N + 4 named entries, and its first
entry is `mimetype`, stored without compression, with exact content
`application/epub+zip`. -/
theorem epub_entry_count (title author : String) (chapters : List Chapter)
    (_hne : chapters ≠ []) :
    (generateEpub title author chapters).length = chapters.length + 4
    ∧ (generateEpub title author chapters).head?
        = some ⟨"mimetype", "application/epub+zip", Compression.STORE⟩ := by
  constructor
  · simp only [generateEpub, List.length_append, List.length_map, List.enum_length,
      List.length_cons, List.length_nil]
    omega
  · rfl

/-- Witness for C3's amended statement at a 1-chapter list. -/
theorem epub_entry_count_witness :
    (generateEpub "T" "A" [⟨"C1", "<p>x</p>"⟩]).length
        = ([⟨"C1", "<p>x</p>"⟩] : List Chapter).length + 4
    ∧ (generateEpub "T" "A" [⟨"C1", "<p>x</p>"⟩]).head?
        = some ⟨"mimetype", "application/epub+zip", Compression.STORE⟩ :=
  epub_entry_count "T" "A" [⟨"C1", "<p>x</p>"⟩] (by decide)
